import Mathlib

/-!
# Verification of the voicelibre real-time audio core

Shallow embedding of the voice-conversation client's audio orchestration
engine and proofs about it:

* `VAD` — the voice-activity detector loop of
  `src/components/chat/helpers/vad.ts`.
* `Chunk` — the text chunker of
  `src/components/chat/helpers/chunkTextForTTS.ts`, including the
  sentence split `text.split(/(?<=[.!?])\s+/)`.
* `Queue` — the TTS playback queue discipline of
  `src/components/chat/hooks/useTTSPlayer.ts` (`maybeStartNext`,
  `enqueueBuffer`, the `onended` handler), in two variants: an atomic
  one, and a fine-grained one exposing the suspension point of
  `await ensurePlaybackReady()` inside `maybeStartNext`.
* `Player` — the `playTTS` control flow and its usage aggregation.
* `Transcribe` — the streaming transcription parser of
  `sendAudioToAPI` in `src/components/bottomBar/hooks/useHandsfree.ts`.
* `Handsfree` — the handsfree orchestrator state machine of
  `src/components/bottomBar/hooks/useHandsfree.ts`.

JavaScript numbers are modelled as exact rationals (`ℚ`); strings as
`List Char` (the sources only ever branch on ASCII content).
-/

set_option maxRecDepth 8000

namespace VoiceLibre

namespace VAD

/-!
## Voice Activity Detector (`src/components/chat/helpers/vad.ts`)

The closure state of `startVAD` consists of the mutable variables
`isSpeaking`, `stopped` and `silenceTimer`.  A pending silence timer is
modelled by a Boolean `timerPending`: every loud frame first clears the
previous timer and schedules a fresh one, so at most the most recently
scheduled timer can ever fire, and `clearTimeout` (in `stop`, and on a
loud frame) resets the Boolean.  The real-time aspect (the timer fires
only after `silenceDuration` ms without a loud frame) is
over-approximated: the `timerFire` event may occur at any point while a
timer is pending, which only adds behaviours and is sound for the
safety properties proved below.
-/

/-- The loudness test of one animation-frame iteration of `loop`:
`rms > volumeThreshold` where
`rms = Math.sqrt(dataArray.reduce((sum, v) => sum + (v - 128)^2, 0) / dataArray.length)`
over byte-valued time-domain samples.  Squaring both sides of the
comparison (the threshold is a nonnegative integer) avoids the square
root: `Σ (v-128)² > threshold² * n`.  For `n = 0` both the original
(`NaN > threshold`) and this model yield `false`. -/
def frameLoud (data : List ℕ) (volumeThreshold : ℕ) : Bool :=
  (volumeThreshold ^ 2 * data.length : ℤ) <
    (data.map (fun v => ((v : ℤ) - 128) ^ 2)).sum

/-- The mutable state of one `startVAD` closure. -/
structure State where
  isSpeaking : Bool
  stopped : Bool
  timerPending : Bool
deriving Repr, DecidableEq

def initState : State := ⟨false, false, false⟩

/-- Events driving the closure: one `loop` iteration over a sample
frame, the pending `silenceTimer` callback running, and a call of the
returned `stop` function. -/
inductive Event
  | frame (data : List ℕ)
  | timerFire
  | stopCall
deriving Repr, DecidableEq

/-- Observable callbacks: `onStart` and `onStop`. -/
inductive Out
  | speechStart
  | speechStop
deriving Repr, DecidableEq

/-- One transition.  `frame`: `loop` returns at once when `stopped`;
otherwise a loud frame fires `onStart` if not already speaking and
(re)schedules the silence timer.  `timerFire`: the timer callback runs
only if still scheduled, and its body checks `isSpeaking && !stopped`
before firing `onStop`.  `stopCall`: sets `stopped`, cancels the loop
and clears any pending timer. -/
def step (volumeThreshold : ℕ) (s : State) : Event → State × List Out
  | .frame data =>
    if s.stopped then (s, [])
    else if frameLoud data volumeThreshold then
      if s.isSpeaking then
        ({ s with timerPending := true }, [])
      else
        ({ s with isSpeaking := true, timerPending := true }, [.speechStart])
    else (s, [])
  | .timerFire =>
    if s.timerPending then
      if s.isSpeaking && !s.stopped then
        ({ s with isSpeaking := false, timerPending := false }, [.speechStop])
      else
        ({ s with timerPending := false }, [])
    else (s, [])
  | .stopCall =>
    ({ s with stopped := true, timerPending := false }, [])

/-- Run a list of events from a state, accumulating outputs in order. -/
def runFrom (vt : ℕ) (s : State) : List Event → State × List Out
  | [] => (s, [])
  | e :: es =>
    ((runFrom vt (step vt s e).1 es).1,
      (step vt s e).2 ++ (runFrom vt (step vt s e).1 es).2)

/-- The callbacks fired over a whole event sequence, from a fresh VAD. -/
def outputs (vt : ℕ) (evs : List Event) : List Out :=
  (runFrom vt initState evs).2

/-- `altFrom speaking outs` holds when `outs` is a strict alternation
continuing from the given speaking state: the next output must be
`speechStart` when not speaking and `speechStop` when speaking. -/
def altFrom : Bool → List Out → Bool
  | _, [] => true
  | false, .speechStart :: rest => altFrom true rest
  | true, .speechStop :: rest => altFrom false rest
  | _, _ => false

theorem step_altFrom (vt : ℕ) (s : State) (e : Event) (rest : List Out) :
    altFrom s.isSpeaking ((step vt s e).2 ++ rest) =
      altFrom (step vt s e).1.isSpeaking rest := by
  cases e with
  | frame data =>
    by_cases hs : s.stopped <;>
      by_cases hl : frameLoud data vt <;>
      by_cases hsp : s.isSpeaking <;>
      simp [step, hs, hl, hsp, altFrom]
  | timerFire =>
    by_cases hp : s.timerPending <;>
      by_cases hsp : s.isSpeaking <;>
      by_cases hs : s.stopped <;>
      simp [step, hp, hsp, hs, altFrom]
  | stopCall => simp [step, altFrom]

theorem runFrom_altFrom (vt : ℕ) (evs : List Event) :
    ∀ s : State, altFrom s.isSpeaking (runFrom vt s evs).2 = true := by
  induction evs with
  | nil => intro s; simp [runFrom, altFrom]
  | cons e es ih =>
    intro s
    show altFrom s.isSpeaking
      ((step vt s e).2 ++ (runFrom vt (step vt s e).1 es).2) = true
    rw [step_altFrom]
    exact ih (step vt s e).1

theorem altFrom_count (l : List Out) :
    ∀ b : Bool, altFrom b l = true →
      l.count Out.speechStop ≤ l.count Out.speechStart + (if b then 1 else 0) := by
  induction l with
  | nil => intro b _; simp
  | cons o rest ih =>
    intro b hb
    cases b with
    | false =>
      cases o with
      | speechStart =>
        have h : rest.count Out.speechStop ≤ rest.count Out.speechStart + 1 := by
          simpa using ih true (by simpa [altFrom] using hb)
        rw [List.count_cons_of_ne (by decide), List.count_cons_self]
        norm_num
        omega
      | speechStop => simp [altFrom] at hb
    | true =>
      cases o with
      | speechStart => simp [altFrom] at hb
      | speechStop =>
        have h : rest.count Out.speechStop ≤ rest.count Out.speechStart := by
          simpa using ih false (by simpa [altFrom] using hb)
        rw [List.count_cons_self, List.count_cons_of_ne (by decide)]
        norm_num
        omega

/-- **C3.** VAD alternation invariant: over any sequence of frame
samples, timer firings and stop calls, the `onStart`/`onStop` callbacks
strictly alternate beginning with `onStart`, and after any prefix of
the event sequence the number of `onStop` invocations never exceeds the
number of `onStart` invocations (every prefix is itself an instance of
the universally quantified event list). -/
theorem vad_alternation (vt : ℕ) (evs : List Event) :
    altFrom false (outputs vt evs) = true ∧
    (outputs vt evs).count Out.speechStop ≤
      (outputs vt evs).count Out.speechStart := by
  have h := runFrom_altFrom vt evs initState
  refine ⟨h, ?_⟩
  have := altFrom_count (outputs vt evs) false h
  simpa using this

theorem runFrom_append (vt : ℕ) (l1 l2 : List Event) (s : State) :
    runFrom vt s (l1 ++ l2) =
      ((runFrom vt (runFrom vt s l1).1 l2).1,
        (runFrom vt s l1).2 ++ (runFrom vt (runFrom vt s l1).1 l2).2) := by
  induction l1 generalizing s with
  | nil => simp [runFrom]
  | cons e es ih => simp [runFrom, ih, List.append_assoc]

theorem runFrom_quiescent (vt : ℕ) (evs : List Event) :
    ∀ s : State, s.stopped = true → s.timerPending = false →
      runFrom vt s evs = (s, []) := by
  induction evs with
  | nil => intro s _ _; rfl
  | cons e es ih =>
    intro s hs hp
    have hstep : step vt s e = (s, []) := by
      cases e with
      | frame data => simp [step, hs]
      | timerFire => simp [step, hp]
      | stopCall =>
        cases s
        simp_all [step]
    show ((runFrom vt (step vt s e).1 es).1,
      (step vt s e).2 ++ (runFrom vt (step vt s e).1 es).2) = (s, [])
    rw [hstep]
    simp [ih s hs hp]

theorem runFrom_stopCall_silent (vt : ℕ) (evs2 : List Event) (s : State) :
    (runFrom vt s (Event.stopCall :: evs2)).2 = [] := by
  show (step vt s Event.stopCall).2 ++
    (runFrom vt (step vt s Event.stopCall).1 evs2).2 = []
  have hq := runFrom_quiescent vt evs2
    ({ s with stopped := true, timerPending := false }) rfl rfl
  simp [step, hq]

/-- **C10.** VAD quiescence after stop: once the `stop` function
returned by `startVAD` has run, no `onStart`/`onStop` callback is ever
invoked again — including from a silence timer that was pending at the
moment of the call (the call clears it), and regardless of how many
further events (frames, timer firings, repeated `stop` calls) follow:
the outputs of any extended sequence equal the outputs produced before
the `stop` call. -/
theorem vad_quiescent_after_stop (vt : ℕ) (evs1 evs2 : List Event) :
    outputs vt (evs1 ++ Event.stopCall :: evs2) = outputs vt evs1 := by
  unfold outputs
  rw [runFrom_append]
  have h1 := runFrom_stopCall_silent vt evs2 (runFrom vt initState evs1).1
  show (runFrom vt initState evs1).2 ++
    (runFrom vt (runFrom vt initState evs1).1 (Event.stopCall :: evs2)).2 =
      (runFrom vt initState evs1).2
  rw [h1]
  simp

end VAD

namespace Chunk

/-!
## Text chunker (`src/components/chat/helpers/chunkTextForTTS.ts`)

Text is modelled as `List Char` (JavaScript string indices and `.length`
agree with character counts on the ASCII inputs the claims concern).
`\s` is modelled by the ASCII whitespace characters; `trim` removes them
from both ends, as `String.prototype.trim` does.
-/

/-- ASCII fragment of the JavaScript `\s` class (space, tab, newline,
carriage return, vertical tab, form feed). -/
def isWS (c : Char) : Bool :=
  c = ' ' || c = '\t' || c = '\n' || c = '\r' || c = '\x0b' || c = '\x0c'

/-- A sentence-ending character of the split regex class `[.!?]`. -/
def isSentEnd (c : Char) : Bool :=
  c = '.' || c = '!' || c = '?'

/-- The split `text.split(/(?<=[.!?])\s+/)`: a maximal whitespace run
immediately preceded by `.`/`!`/`?` separates tokens and is consumed.
`prev` is the previous character (for the lookbehind), `acc` the
current token reversed, `inSep` whether we are inside a separator run
(so that the `+` consumes the whole run). -/
def splitGo : List Char → Option Char → List Char → Bool → List (List Char)
  | [], _, acc, _ => [acc.reverse]
  | c :: rest, prev, acc, inSep =>
    if isWS c && (inSep || (match prev with
        | some p => isSentEnd p
        | none => false)) then
      if inSep then splitGo rest (some c) acc true
      else acc.reverse :: splitGo rest (some c) [] true
    else
      splitGo rest (some c) (c :: acc) false

/-- `text.split(sentenceEndRegex).filter(Boolean)`: the split tokens
with empty strings removed. -/
def sentencesOf (text : List Char) : List (List Char) :=
  (splitGo text none [] false).filter (fun s => !s.isEmpty)

/-- `String.prototype.trim()` on the ASCII whitespace fragment. -/
def trimChars (cs : List Char) : List Char :=
  ((cs.dropWhile isWS).reverse.dropWhile isWS).reverse

/-- The intro-chunk computation of `chunkTextForTTS` for texts longer
than 80 characters: the first sentence if it has at least 30
characters, else `[first, second].join(" ").trim()` (the join of two
elements always inserts exactly one space). -/
def introOf (text : List Char) : List Char :=
  let sentences := sentencesOf text
  let first := sentences.headD []
  let second := (sentences.drop 1).headD []
  if 30 ≤ first.length then first
  else trimChars (first ++ ' ' :: second)

/-- `chunkTextForTTS(text)`: texts of at most 80 characters are a single
chunk; otherwise the intro is `introOf text` and the remainder is
`text.slice(introChunk.length).trim()`, omitted when empty
(`remainder || undefined`). -/
def chunkTextForTTS (text : List Char) : List Char × Option (List Char) :=
  if text.length ≤ 80 then (text, none)
  else
    let introChunk := introOf text
    let remainder := trimChars (text.drop introChunk.length)
    (introChunk, if remainder.isEmpty then none else some remainder)

/-- Removal of all whitespace: the comparison underlying "content
equivalent … modulo the single joining space and trimming". -/
def stripWS (cs : List Char) : List Char :=
  cs.filter (fun c => !isWS c)

theorem stripWS_dropWhile (l : List Char) :
    stripWS (l.dropWhile isWS) = stripWS l := by
  conv_rhs => rw [← List.takeWhile_append_dropWhile (p := isWS) (l := l)]
  unfold stripWS
  rw [List.filter_append]
  have h : (l.takeWhile isWS).filter (fun c => !isWS c) = [] := by
    rw [List.filter_eq_nil_iff]
    intro a ha
    have := List.mem_takeWhile_imp ha
    simp [this]
  rw [h]
  simp

theorem stripWS_reverse (l : List Char) :
    stripWS l.reverse = (stripWS l).reverse := by
  simp [stripWS, List.filter_reverse]

/-- Trimming only removes whitespace, hence is invisible to `stripWS`. -/
theorem stripWS_trimChars (l : List Char) :
    stripWS (trimChars l) = stripWS l := by
  unfold trimChars
  rw [stripWS_reverse, stripWS_dropWhile, stripWS_reverse,
    List.reverse_reverse, stripWS_dropWhile]

theorem stripWS_append (l1 l2 : List Char) :
    stripWS (l1 ++ l2) = stripWS l1 ++ stripWS l2 := by
  simp [stripWS, List.filter_append]

/-- **C6 (amended).** Chunker round trip: for every text longer than 80
characters whose computed intro chunk is a literal prefix of the text
(which always holds when the first sentence has at least 30 characters,
and in the join case whenever the whitespace after the first sentence
is a single space and the text has no leading whitespace), concatenating
`intro ++ " " ++ remainder` — or `intro` alone when the remainder is
absent — reconstructs the original text up to whitespace: stripping all
whitespace yields exactly the original characters, none lost.  When the
intro is *not* a prefix of the text (the join path with a multi-space or
newline sentence separator, or a trimmed leading space),
`text.slice(introChunk.length)` cuts at the wrong offset and characters
of the second sentence are duplicated into the remainder, so the
round trip fails — see the counterexample. -/
theorem chunk_roundtrip_of_intro_take (text : List Char)
    (hlen : 80 < text.length)
    (hpre : text.take (chunkTextForTTS text).1.length = (chunkTextForTTS text).1) :
    (match (chunkTextForTTS text).2 with
      | some rem => stripWS ((chunkTextForTTS text).1 ++ ' ' :: rem)
      | none => stripWS (chunkTextForTTS text).1) = stripWS text := by
  have h80 : ¬ text.length ≤ 80 := by omega
  have h1 : (chunkTextForTTS text).1 = introOf text := by
    simp [chunkTextForTTS, h80]
  have h2 : (chunkTextForTTS text).2 =
      (if (trimChars (text.drop (introOf text).length)).isEmpty then none
        else some (trimChars (text.drop (introOf text).length))) := by
    simp [chunkTextForTTS, h80]
  have hsplit : introOf text ++ text.drop (introOf text).length = text := by
    conv_rhs => rw [← List.take_append_drop (introOf text).length text]
    rw [← h1, hpre]
  have hkey : stripWS (introOf text) ++ stripWS (text.drop (introOf text).length)
      = stripWS text := by
    rw [← stripWS_append, hsplit]
  rw [h1, h2]
  by_cases hempty : (trimChars (text.drop (introOf text).length)).isEmpty
  · rw [if_pos hempty]
    have h0 : stripWS (text.drop (introOf text).length) = [] := by
      rw [← stripWS_trimChars]
      simp_all [List.isEmpty_iff, stripWS]
    simp only []
    rw [← hkey, h0]
    simp [stripWS]
  · rw [if_neg hempty]
    simp only []
    have hsp : stripWS (' ' :: trimChars (text.drop (introOf text).length))
        = stripWS (text.drop (introOf text).length) := by
      have hws : stripWS (' ' :: trimChars (text.drop (introOf text).length))
          = stripWS (trimChars (text.drop (introOf text).length)) := by
        simp [stripWS, isWS]
      rw [hws, stripWS_trimChars]
    rw [stripWS_append, hsp, hkey]

/-- The concrete input refuting C6 as stated: longer than 80
characters, first sentence shorter than 30 characters, and *two* spaces
after the first sentence.  The join `[first, second].join(" ")` inserts
only one space, so `text.slice(introChunk.length)` cuts one character
before the end of the second sentence and the final `.` of the second
sentence is duplicated into the remainder. -/
def c6CounterText : List Char :=
  ("Hi there.  Second sentence is quite long and it continues onward. " ++
    "Final bit ends now.").data

/-- **C6 (counterexample).** The chunker round trip fails on
`c6CounterText` (85 characters, so the `>80` branch is taken, and a
remainder is returned): `intro ++ " " ++ remainder` does *not*
reconstruct the original content — even ignoring all whitespace, the
concatenation contains an extra duplicated `.` character. -/
theorem chunk_roundtrip_counterexample :
    80 < c6CounterText.length ∧
    (chunkTextForTTS c6CounterText).2.isSome = true ∧
    stripWS ((chunkTextForTTS c6CounterText).1 ++
        ' ' :: ((chunkTextForTTS c6CounterText).2.getD [])) ≠
      stripWS c6CounterText := by
  refine ⟨by decide, by decide, by decide⟩

/-- A concrete input in the well-behaved regime of C6: longer than 80
characters with a first sentence of at least 30 characters, so the
intro chunk is a literal prefix of the text. -/
def c6WitnessText : List Char :=
  ("This is a sufficiently long first sentence. And here is the rest " ++
    "of the text which continues.").data

theorem chunk_roundtrip_witness :
    80 < c6WitnessText.length ∧
    c6WitnessText.take (chunkTextForTTS c6WitnessText).1.length =
      (chunkTextForTTS c6WitnessText).1 ∧
    (match (chunkTextForTTS c6WitnessText).2 with
      | some rem => stripWS ((chunkTextForTTS c6WitnessText).1 ++ ' ' :: rem)
      | none => stripWS (chunkTextForTTS c6WitnessText).1) = stripWS c6WitnessText :=
  ⟨by decide, by decide,
    chunk_roundtrip_of_intro_take c6WitnessText (by decide) (by decide)⟩

end Chunk

namespace Queue

/-!
## Playback queue (`src/components/chat/hooks/useTTSPlayer.ts`)

A `QueueItem` of `useTTSPlayer` carries the decoded buffer (identified
here by `id`), the owning turn id (irrelevant to the queue discipline
and omitted), the handsfree flag, the last-chunk flag and an optional
completion callback (modelled by `hasOnComplete`).

Two models of `maybeStartNext`/`enqueueBuffer`/`node.onended`:

* `AState`/`stepA` — the **atomic** model: one `maybeStartNext`
  invocation runs from its `isDequeuingRef` guard check to `node.start`
  without interleaving (the regime where the
  `await ensurePlaybackReady()` inside it resolves within the same
  microtask drain, e.g. pipeline already primed and context running).
* `FState`/`stepF` — the **fine-grained** model: an invocation is split
  at that `await`.  Its guard check (`if (isDequeuingRef.current) return;
  if (queue.length === 0) return`) runs synchronously (`enq`/`invoke`),
  the invocation then suspends (`pending`), and `resume ok` performs
  `isDequeuingRef.current = true; shift(); node.start(...)` — the code
  sets the guard only *after* the await, so two invocations whose guard
  checks both precede either resumption can both start a chunk.

`actives` is the list of source nodes started and not yet ended — the
chunks "in the scheduled/active state".  It is a list precisely so that
the single-active property is a theorem rather than a typing artifact.
-/

structure Item where
  id : ℕ
  isHandsfree : Bool
  lastChunk : Bool
  hasOnComplete : Bool
deriving Repr, DecidableEq

/-- Observable effects of the `onended` handler: the scheduled
`onComplete` callback, and the `"tts-oncomplete"` window event. -/
inductive QSignal
  | onCompleteCb
  | ttsOncomplete
deriving Repr, DecidableEq

structure AState where
  queue : List Item
  dequeuing : Bool
  actives : List Item
  played : List Item
  enqueued : List Item
deriving Repr, DecidableEq

def initA : AState := ⟨[], false, [], [], []⟩

/-- One atomic run of `maybeStartNext`: return if a dequeue is in
progress or the queue is empty; otherwise set `isDequeuingRef`, shift
the head item and start it (`played` is the ghost history of started
chunks, in order). -/
def maybeStartNextA (s : AState) : AState :=
  if s.dequeuing then s
  else
    match s.queue with
    | [] => s
    | item :: rest =>
      { s with
        dequeuing := true
        queue := rest
        actives := s.actives ++ [item]
        played := s.played ++ [item] }

/-- Events of the atomic model: `enqueueBuffer` (push then
`maybeStartNext`), the active node's `onended` handler (which fires its
signals, resets `isDequeuingRef` and queues `maybeStartNext`), and a
bare `maybeStartNext` invocation. -/
inductive AEvent
  | enq (item : Item)
  | ended
  | msn
deriving Repr, DecidableEq

def stepA (s : AState) : AEvent → AState × List QSignal
  | .enq item =>
    (maybeStartNextA
      { s with queue := s.queue ++ [item], enqueued := s.enqueued ++ [item] }, [])
  | .ended =>
    match s.actives with
    | [] => (s, [])
    | a :: rest =>
      (maybeStartNextA { s with actives := rest, dequeuing := false },
        (if a.lastChunk && a.hasOnComplete then [QSignal.onCompleteCb] else []) ++
          (if s.queue.isEmpty && a.isHandsfree then [QSignal.ttsOncomplete] else []))
  | .msn => (maybeStartNextA s, [])

def runA (s : AState) : List AEvent → AState × List QSignal
  | [] => (s, [])
  | e :: es =>
    ((runA (stepA s e).1 es).1, (stepA s e).2 ++ (runA (stepA s e).1 es).2)

/-- The queue-discipline invariant of the atomic model: the
dequeue-in-progress flag tracks whether a chunk is active, at most one
chunk is active, and the started chunks followed by the still-queued
chunks are exactly the enqueue history in order (strict FIFO, no loss,
no reorder). -/
def InvQ (s : AState) : Prop :=
  s.dequeuing = !s.actives.isEmpty ∧
  s.actives.length ≤ 1 ∧
  s.played ++ s.queue = s.enqueued

theorem maybeStartNextA_inv (s : AState) (h : InvQ s) : InvQ (maybeStartNextA s) := by
  obtain ⟨q, dq, act, pl, en⟩ := s
  obtain ⟨hd, hl, hf⟩ := h
  simp only [InvQ] at *
  cases dq with
  | true => exact ⟨hd, hl, hf⟩
  | false =>
    have hact : act = [] := by
      cases act with
      | nil => rfl
      | cons a t => simp at hd
    subst hact
    cases q with
    | nil => exact ⟨hd, hl, hf⟩
    | cons item rest =>
      refine ⟨rfl, by simp [maybeStartNextA], ?_⟩
      show (pl ++ [item]) ++ rest = en
      rw [List.append_assoc, List.singleton_append]
      exact hf

theorem stepA_inv (s : AState) (e : AEvent) (h : InvQ s) : InvQ (stepA s e).1 := by
  cases e with
  | enq item =>
    obtain ⟨hd, hl, hf⟩ := h
    show InvQ (maybeStartNextA
      { s with queue := s.queue ++ [item], enqueued := s.enqueued ++ [item] })
    apply maybeStartNextA_inv
    refine ⟨hd, hl, ?_⟩
    show s.played ++ (s.queue ++ [item]) = s.enqueued ++ [item]
    rw [← List.append_assoc, hf]
  | ended =>
    obtain ⟨q, dq, act, pl, en⟩ := s
    obtain ⟨hd, hl, hf⟩ := h
    simp only [InvQ] at *
    cases act with
    | nil => exact ⟨hd, hl, hf⟩
    | cons a rest =>
      have hrest : rest = [] := by simpa using hl
      subst hrest
      apply maybeStartNextA_inv
      exact ⟨by simp, by simp, hf⟩
  | msn => exact maybeStartNextA_inv s h

theorem runA_inv (evs : List AEvent) :
    ∀ s : AState, InvQ s → InvQ (runA s evs).1 := by
  induction evs with
  | nil => intro s h; exact h
  | cons e es ih =>
    intro s h
    exact ih (stepA s e).1 (stepA_inv s e h)

/-- **C1 (amended).** Playback queue discipline under serialized
`maybeStartNext` execution: for any sequence of enqueues, chunk-ended
callbacks and `maybeStartNext` invocations, at most one chunk is ever
in the scheduled/active state, and the chunks started so far followed
by the chunks still queued are exactly the enqueued chunks in order —
so chunks are started in strict FIFO enqueue order.  This holds in the
atomic model, i.e. whenever no `maybeStartNext` guard check interleaves
between another invocation's guard check and its `node.start` (the
`await ensurePlaybackReady()` between the `isDequeuingRef` check and
`isDequeuingRef.current = true` resolves without yielding to another
task).  Without that proviso the guard is insufficient — see the
counterexample on the fine-grained model. -/
theorem queue_fifo_single_active (evs : List AEvent) :
    (runA initA evs).1.actives.length ≤ 1 ∧
    (runA initA evs).1.played ++ (runA initA evs).1.queue =
      (runA initA evs).1.enqueued := by
  have h := runA_inv evs initA ⟨rfl, by simp [initA], rfl⟩
  exact ⟨h.2.1, h.2.2⟩

/-!
### Fine-grained model: the suspension inside `maybeStartNext`
-/

structure FState where
  queue : List Item
  dequeuing : Bool
  pending : ℕ
  actives : List Item
  played : List Item
deriving Repr, DecidableEq

def initF : FState := ⟨[], false, 0, [], []⟩

/-- The synchronous prefix of `maybeStartNext`:
`if (isDequeuingRef.current) return; if (playQueueRef.current.length === 0) return;`
then the invocation suspends at `await ensurePlaybackReady()`. -/
def guardCheck (s : FState) : FState :=
  if s.dequeuing || s.queue.isEmpty then s else { s with pending := s.pending + 1 }

/-- Events of the fine-grained model.  `enq item` is `enqueueBuffer`:
push, then the synchronous guard check of its `maybeStartNext` call.
`invoke` is a guard check from any other source (e.g. the microtask
queued by `onended`).  `resume ok` is a suspended invocation resuming
with the result of `ensurePlaybackReady()`: on `ok` it performs
`isDequeuingRef.current = true`, shifts the queue head and starts it
(on an empty queue `shift()` yields `undefined` and the destructuring
throws, leaving the flag set and no chunk started).  `ended` is the
active node's `onended`, which resets the flag. -/
inductive FEvent
  | enq (item : Item)
  | invoke
  | resume (ok : Bool)
  | ended
deriving Repr, DecidableEq

def stepF (s : FState) : FEvent → FState
  | .enq item => guardCheck { s with queue := s.queue ++ [item] }
  | .invoke => guardCheck s
  | .resume ok =>
    match s.pending with
    | 0 => s
    | p + 1 =>
      if ok then
        match s.queue with
        | [] => { s with pending := p, dequeuing := true }
        | item :: rest =>
          { s with
            pending := p
            dequeuing := true
            queue := rest
            actives := s.actives ++ [item]
            played := s.played ++ [item] }
      else { s with pending := p }
  | .ended =>
    match s.actives with
    | [] => s
    | _ :: rest => { s with actives := rest, dequeuing := false }

def runF (s : FState) : List FEvent → FState
  | [] => s
  | e :: es => runF (stepF s e) es

/-- **C1 (counterexample).** The dequeue-in-progress guard does not
make the single-active invariant hold at every instant: two
`enqueueBuffer` calls whose `maybeStartNext` invocations both pass the
`isDequeuingRef` guard check before either resumes from
`await ensurePlaybackReady()` (reachable when that await suspends
beyond the current microtask drain, e.g. while a suspended audio
context resumes) both reach `isDequeuingRef.current = true; shift();
node.start(...)`, leaving **two** chunks simultaneously in the
scheduled/active state. -/
theorem queue_double_start_counterexample :
    (runF initF [FEvent.enq ⟨0, false, false, false⟩,
      FEvent.enq ⟨1, false, false, false⟩,
      FEvent.resume true, FEvent.resume true]).actives =
      [⟨0, false, false, false⟩, ⟨1, false, false, false⟩] ∧
    2 ≤ (runF initF [FEvent.enq ⟨0, false, false, false⟩,
      FEvent.enq ⟨1, false, false, false⟩,
      FEvent.resume true, FEvent.resume true]).actives.length := by
  refine ⟨by decide, by decide⟩

end Queue

namespace Player

/-!
## `playTTS` control flow and usage aggregation
(`src/components/chat/hooks/useTTSPlayer.ts`, lines 588–664)

`playTTS` is modelled as a pure function of the decisions of its
environment: whether the duplicate-trigger guard fires
(`alreadyPlayingSame` = `currentMessageId === messageId && isPlaying`),
whether `ensurePlaybackReady()` succeeded, and the results of the two
`fetchAndDecode` calls (`none` models a failed fetch/decode — a non-OK
response, empty blob or decode error; a successful result always
carries a buffer, identified by `bufferId`, plus optional usage
metadata from the `x-audio-details` header).  Its observable outcome is
the list of queue items it enqueues (in order), whether it dispatched
the early `"tts-oncomplete"` event on remainder failure (line 627), and
its return value.
-/

/-- The `audioUsage` record `{cost, char_count, latency}`; JavaScript
numbers modelled as exact rationals. -/
structure AudioUsage where
  cost : ℚ
  char_count : ℚ
  latency : ℚ
deriving Repr, DecidableEq

structure DecodedAudio where
  bufferId : ℕ
  usage : Option AudioUsage
deriving Repr, DecidableEq

/-- `Math.round` on exact rationals: round half away from zero is
`Math.round(x) = ⌊x + 1/2⌋` for the nonnegative latencies involved
(JavaScript rounds half toward +∞ in general, which is the same
formula). -/
def jsRound (q : ℚ) : ℤ := ⌊q + 1 / 2⌋

/-- The aggregation of lines 639–655: cost and char_count are summed
with `?? 0` defaults; latency is the rounded mean when both chunks
report one, else whichever is present, else 0; the result is `null`
unless `intro.usage` is truthy, the remainder latency is non-null, or
cost/char_count are nonzero. -/
def aggregateUsage (iu ru : Option AudioUsage) : Option AudioUsage :=
  let cost := (iu.map AudioUsage.cost).getD 0 + (ru.map AudioUsage.cost).getD 0
  let char_count :=
    (iu.map AudioUsage.char_count).getD 0 + (ru.map AudioUsage.char_count).getD 0
  let latency : ℚ :=
    match iu.map AudioUsage.latency, ru.map AudioUsage.latency with
    | some a, some b => ((jsRound ((a + b) / 2) : ℤ) : ℚ)
    | some a, none => a
    | none, some b => b
    | none, none => 0
  if iu.isSome || ru.isSome || decide (cost ≠ 0) || decide (char_count ≠ 0) then
    some ⟨cost, char_count, latency⟩
  else none

structure PlayResult where
  enqueues : List Queue.Item
  earlyOncomplete : Bool
  ret : Option AudioUsage
deriving Repr, DecidableEq

/-- `playTTS(messageId, text, isHandsfree, onComplete)`:
duplicate-trigger guard; readiness check; chunking; intro enqueued with
`isHandsfree: !remainder && isHandsfree`, `lastChunk: !remainder`,
`onComplete` only when there is no remainder; on remainder failure the
intro stays enqueued, `"tts-oncomplete"` is dispatched immediately if
handsfree, and the intro's usage (or null) is returned; otherwise the
remainder is enqueued as the last chunk carrying the completion
callback and the aggregated usage is returned. -/
def playTTS (alreadyPlayingSame ready : Bool) (text : List Char)
    (isHandsfree hasOnComplete : Bool)
    (introRes remRes : Option DecodedAudio) : PlayResult :=
  if alreadyPlayingSame then ⟨[], false, none⟩
  else if !ready then ⟨[], false, none⟩
  else
    match (Chunk.chunkTextForTTS text).2, introRes with
    | _, none => ⟨[], false, none⟩
    | none, some intro =>
      ⟨[{ id := intro.bufferId, isHandsfree := isHandsfree,
          lastChunk := true, hasOnComplete := hasOnComplete }],
        false, aggregateUsage intro.usage none⟩
    | some _, some intro =>
      match remRes with
      | none =>
        ⟨[{ id := intro.bufferId, isHandsfree := false,
            lastChunk := false, hasOnComplete := false }],
          isHandsfree, intro.usage⟩
      | some rem =>
        ⟨[{ id := intro.bufferId, isHandsfree := false,
            lastChunk := false, hasOnComplete := false },
          { id := rem.bufferId, isHandsfree := isHandsfree,
            lastChunk := true, hasOnComplete := hasOnComplete }],
          false, aggregateUsage intro.usage rem.usage⟩

/-- **C7.** Usage aggregation: when `playTTS` obtains usage records for
both the intro and the remainder chunk, the returned aggregate sums the
costs, sums the character counts, and takes the rounded mean of the two
latencies; when only one chunk carries a usage record, its latency (and
its cost/char_count, summed with the 0 defaults) is returned unchanged.
The claim's concrete instance is the witness. -/
theorem playTTS_usage_aggregation (text : List Char) (iu ru : AudioUsage)
    (bid0 bid1 : ℕ) (hf hoc : Bool)
    (hrem : (Chunk.chunkTextForTTS text).2.isSome = true) :
    (playTTS false true text hf hoc (some ⟨bid0, some iu⟩)
        (some ⟨bid1, some ru⟩)).ret =
      some ⟨iu.cost + ru.cost, iu.char_count + ru.char_count,
        ((jsRound ((iu.latency + ru.latency) / 2) : ℤ) : ℚ)⟩ ∧
    aggregateUsage (some iu) none = some ⟨iu.cost, iu.char_count, iu.latency⟩ ∧
    aggregateUsage none (some ru) = some ⟨ru.cost, ru.char_count, ru.latency⟩ := by
  obtain ⟨r, hr⟩ := Option.isSome_iff_exists.mp hrem
  refine ⟨?_, ?_, ?_⟩
  · simp [playTTS, hr, aggregateUsage]
  · simp [aggregateUsage]
  · simp [aggregateUsage]

/-- A concrete text long enough to be chunked into intro and remainder,
used by the C7 witness. -/
def c7Text : List Char :=
  ("The first sentence of this answer is long enough on its own. " ++
    "The remainder of the answer arrives as a second chunk.").data

theorem playTTS_usage_aggregation_witness :
    (Chunk.chunkTextForTTS c7Text).2.isSome = true ∧
    (playTTS false true c7Text true true
        (some ⟨0, some ⟨1 / 1000, 30, 100⟩⟩)
        (some ⟨1, some ⟨2 / 1000, 50, 200⟩⟩)).ret =
      some ⟨3 / 1000, 80, 150⟩ := by
  refine ⟨by decide, ?_⟩
  have h := (playTTS_usage_aggregation c7Text ⟨1 / 1000, 30, 100⟩ ⟨2 / 1000, 50, 200⟩
    0 1 true true (by decide)).1
  rw [h]
  norm_num [jsRound]

/-- A concrete text long enough to be chunked into intro and remainder,
used by the C8 scenario. -/
def c8Text : List Char :=
  ("Here is the start of a spoken reply that is fairly long overall. " ++
    "And this later part would have been the remainder chunk.").data

/-- **C8 (counterexample).** With a remainder chunk whose fetch fails
while the intro succeeds (handsfree), the `"tts-oncomplete"` signal is
*not* fired by the intro finishing: `playTTS` dispatches it itself,
immediately upon detecting the remainder failure (line 627), while the
intro is still queued/playing; the intro was enqueued with
`isHandsfree: false` and `lastChunk: false`, so the `onended` handler
for the intro emits no signal at all when the intro finishes. -/
theorem playTTS_remainder_failure_counterexample :
    (playTTS false true c8Text true true (some ⟨0, none⟩) none).earlyOncomplete
      = true ∧
    (playTTS false true c8Text true true (some ⟨0, none⟩) none).enqueues =
      [⟨0, false, false, false⟩] ∧
    (Queue.stepA
        (Queue.runA Queue.initA [Queue.AEvent.enq ⟨0, false, false, false⟩]).1
        Queue.AEvent.ended).2 = [] := by
  refine ⟨by decide, by decide, by decide⟩

/-- **C8 (amended).** Remainder-failure degradation: for every `playTTS`
call whose text yields both an intro and a remainder chunk, if the
remainder fetch/decode fails while the intro succeeds, the intro is
still enqueued (with `isHandsfree`, `lastChunk` and the completion
callback all cleared) and is played by the queue, and `playTTS` returns
the intro's usage only (or null if the intro had none).  In handsfree
mode the "playback complete" signal still fires exactly once — but it
is dispatched immediately by `playTTS` when the failure is detected,
not once the intro finishes: running the queue on the intro enqueue
through its `onended` shows the intro's completion emits no signal. -/
theorem playTTS_remainder_failure (text : List Char) (bid : ℕ)
    (iu : Option AudioUsage) (hoc : Bool)
    (hrem : (Chunk.chunkTextForTTS text).2.isSome = true) :
    playTTS false true text true hoc (some ⟨bid, iu⟩) none =
      ⟨[⟨bid, false, false, false⟩], true, iu⟩ ∧
    (Queue.runA Queue.initA
        [Queue.AEvent.enq ⟨bid, false, false, false⟩, Queue.AEvent.ended]).1.played =
      [⟨bid, false, false, false⟩] ∧
    (Queue.runA Queue.initA
        [Queue.AEvent.enq ⟨bid, false, false, false⟩, Queue.AEvent.ended]).2 = [] := by
  obtain ⟨r, hr⟩ := Option.isSome_iff_exists.mp hrem
  exact ⟨by simp [playTTS, hr], rfl, rfl⟩

theorem playTTS_remainder_failure_witness :
    (Chunk.chunkTextForTTS c8Text).2.isSome = true ∧
    (playTTS false true c8Text true true (some ⟨5, some ⟨1 / 1000, 40, 120⟩⟩) none =
      ⟨[⟨5, false, false, false⟩], true, some ⟨1 / 1000, 40, 120⟩⟩ ∧
    (Queue.runA Queue.initA
        [Queue.AEvent.enq ⟨5, false, false, false⟩, Queue.AEvent.ended]).1.played =
      [⟨5, false, false, false⟩] ∧
    (Queue.runA Queue.initA
        [Queue.AEvent.enq ⟨5, false, false, false⟩, Queue.AEvent.ended]).2 = []) :=
  ⟨by decide, playTTS_remainder_failure c8Text 5 (some ⟨1 / 1000, 40, 120⟩) true (by decide)⟩

end Player

namespace Transcribe

/-!
## Streaming transcription parser
(`sendAudioToAPI` in `src/components/bottomBar/hooks/useHandsfree.ts`,
lines 251–352)

The response body is read chunk by chunk; each chunk is split on
newlines, blank lines are dropped, and each remaining line is
dispatched: lines without the `"data: "` prefix are ignored
(`Line.otherLine`); for data lines the trimmed payload is either the
`[DONE]` sentinel, JSON parsing as a `transcript.text.delta` event
(with an optional `delta` field, `?? ""`), JSON parsing as a usage
event (all fields `?? 0`), some other JSON value, or invalid JSON
(silently skipped).  The payload classification performed by
`JSON.parse` plus the `if`/`else` chain is modelled by the `Payload`
inductive.  `text` is `List Char`; on `[DONE]` the transcript is
emitted only when `!emittedRef.current && fullText.trim()`, and both
the inner `for` and the outer `while` break once `doneReading` is set,
so lines after the first `[DONE]` are never processed.
-/

/-- The transcription usage record `{cost, prompt_char, latency_ms, ttfc_ms}`. -/
structure TUsage where
  cost : ℚ
  promptChar : ℚ
  latencyMs : ℚ
  ttfcMs : ℚ
deriving Repr, DecidableEq

/-- The classification of a `"data: "` line's trimmed payload. -/
inductive Payload
  | done
  | delta (d : Option (List Char))
  | usageEvt (cost promptChar latencyMs ttfcMs : Option ℚ)
  | otherJson
  | invalid
deriving Repr, DecidableEq

inductive Line
  | dataLine (p : Payload)
  | otherLine
deriving Repr, DecidableEq

/-- The local state of `sendAudioToAPI`'s streaming loop, plus the
ghost list `emissions` of `onNewTranscription` calls made so far. -/
structure TState where
  fullText : List Char
  usage : Option TUsage
  emitted : Bool
  doneReading : Bool
  emissions : List (List Char × Option TUsage)
deriving Repr, DecidableEq

def initT : TState := ⟨[], none, false, false, []⟩

def processLine (s : TState) : Line → TState
  | .otherLine => s
  | .dataLine .done =>
    if !s.emitted && !(Chunk.trimChars s.fullText).isEmpty then
      { s with
        emitted := true
        doneReading := true
        emissions := s.emissions ++ [(s.fullText, s.usage)] }
    else { s with doneReading := true }
  | .dataLine (.delta d) => { s with fullText := s.fullText ++ d.getD [] }
  | .dataLine (.usageEvt c pc lm tm) =>
    { s with usage := some ⟨c.getD 0, pc.getD 0, lm.getD 0, tm.getD 0⟩ }
  | .dataLine .otherJson => s
  | .dataLine .invalid => s

/-- The inner `for` loop over one chunk's lines, with the `break` after
`[DONE]` (no further line of the chunk is processed once `doneReading`
is set). -/
def processAll (s : TState) : List Line → TState
  | [] => s
  | l :: rest => if s.doneReading then s else processAll (processLine s l) rest

/-- The outer `while` loop over the delivered chunks, which breaks once
`doneReading` is set. -/
def processStream (s : TState) : List (List Line) → TState
  | [] => s
  | c :: cs => if s.doneReading then s else processStream (processAll s c) cs

/-- Does the line carry the `[DONE]` sentinel? -/
def hasDone : Line → Bool
  | .dataLine .done => true
  | _ => false

def deltaOf : Line → List Char
  | .dataLine (.delta d) => d.getD []
  | _ => []

/-- The deltas of a line list concatenated in arrival order. -/
def concatDeltas (ls : List Line) : List Char := (ls.map deltaOf).flatten

def usageOfLine : Line → Option TUsage
  | .dataLine (.usageEvt c pc lm tm) => some ⟨c.getD 0, pc.getD 0, lm.getD 0, tm.getD 0⟩
  | _ => none

/-- The last usage event of a line list, if any (later events overwrite
earlier ones). -/
def lastUsage : List Line → Option TUsage
  | [] => none
  | l :: rest =>
    match lastUsage rest with
    | some u => some u
    | none => usageOfLine l

theorem processAll_of_done (s : TState) (ls : List Line)
    (h : s.doneReading = true) : processAll s ls = s := by
  cases ls with
  | nil => rfl
  | cons l rest => simp [processAll, h]

theorem processStream_of_done (s : TState) (cs : List (List Line))
    (h : s.doneReading = true) : processStream s cs = s := by
  cases cs with
  | nil => rfl
  | cons c rest => simp [processStream, h]

theorem processAll_append (l1 l2 : List Line) : ∀ s : TState,
    processAll s (l1 ++ l2) = processAll (processAll s l1) l2 := by
  induction l1 with
  | nil => intro s; rfl
  | cons l t ih =>
    intro s
    by_cases hd : s.doneReading
    · rw [List.cons_append]
      simp [processAll, hd, processAll_of_done _ l2 hd]
    · rw [List.cons_append]
      simp [processAll, hd, ih]

/-- Chunk boundaries are invisible: processing the stream chunk by
chunk (with both break statements) equals processing the concatenation
of all lines with the per-line break. -/
theorem processStream_eq_processAll (cs : List (List Line)) : ∀ s : TState,
    processStream s cs = processAll s cs.flatten := by
  induction cs with
  | nil => intro s; rfl
  | cons c rest ih =>
    intro s
    by_cases hd : s.doneReading
    · simp [processStream, hd, processAll_of_done _ _ hd]
    · simp [processStream, hd, ih, processAll_append]

/-- Effect of a run of `[DONE]`-free lines: deltas are appended to the
transcript in arrival order, the last usage event (if any) overwrites
the stored usage, and nothing is emitted. -/
theorem processAll_noDone (ls : List Line) : ∀ s : TState,
    s.doneReading = false → (∀ l ∈ ls, hasDone l = false) →
    (processAll s ls).fullText = s.fullText ++ concatDeltas ls ∧
    (processAll s ls).usage =
      (match lastUsage ls with
        | some u => some u
        | none => s.usage) ∧
    (processAll s ls).emitted = s.emitted ∧
    (processAll s ls).doneReading = false ∧
    (processAll s ls).emissions = s.emissions := by
  induction ls with
  | nil =>
    intro s hd _
    simp [processAll, concatDeltas, lastUsage, hd]
  | cons l rest ih =>
    intro s hd hall
    have hl : hasDone l = false := hall l (List.mem_cons_self l rest)
    have hrest : ∀ l' ∈ rest, hasDone l' = false :=
      fun l' h' => hall l' (List.mem_cons_of_mem l h')
    have hstep : processAll s (l :: rest) = processAll (processLine s l) rest := by
      simp [processAll, hd]
    have hfields : (processLine s l).fullText = s.fullText ++ deltaOf l ∧
        (processLine s l).usage =
          (match usageOfLine l with
            | some u => some u
            | none => s.usage) ∧
        (processLine s l).emitted = s.emitted ∧
        (processLine s l).doneReading = false ∧
        (processLine s l).emissions = s.emissions := by
      cases l with
      | otherLine => simp [processLine, deltaOf, usageOfLine, hd]
      | dataLine p =>
        cases p with
        | done => simp [hasDone] at hl
        | delta d => simp [processLine, deltaOf, usageOfLine, hd]
        | usageEvt c pc lm tm => simp [processLine, deltaOf, usageOfLine, hd]
        | otherJson => simp [processLine, deltaOf, usageOfLine, hd]
        | invalid => simp [processLine, deltaOf, usageOfLine, hd]
    obtain ⟨hf1, hf2, hf3, hf4, hf5⟩ := hfields
    obtain ⟨g1, g2, g3, g4, g5⟩ := ih (processLine s l) hf4 hrest
    rw [hstep]
    refine ⟨?_, ?_, ?_, ?_, ?_⟩
    · rw [g1, hf1, List.append_assoc]
      simp [concatDeltas]
    · rw [g2, hf2]
      show (match lastUsage rest with
        | some u => some u
        | none => match usageOfLine l with
          | some u => some u
          | none => s.usage) =
        (match lastUsage (l :: rest) with
          | some u => some u
          | none => s.usage)
      show _ = (match (match lastUsage rest with
          | some u => some u
          | none => usageOfLine l) with
        | some u => some u
        | none => s.usage)
      cases lastUsage rest with
      | some u => rfl
      | none => cases usageOfLine l with
        | some u => rfl
        | none => rfl
    · rw [g3, hf3]
    · exact g4
    · rw [g5, hf5]

/-- The emission bookkeeping invariant: the number of
`onNewTranscription` calls matches the `emittedRef` guard, and the
guard is only ever set together with `doneReading`. -/
def EmInv (s : TState) : Prop :=
  s.emissions.length = (if s.emitted then 1 else 0) ∧
  (s.emitted = true → s.doneReading = true)

theorem processLine_emInv (s : TState) (l : Line) (h : EmInv s) :
    EmInv (processLine s l) := by
  obtain ⟨h1, h2⟩ := h
  cases l with
  | otherLine => exact ⟨h1, h2⟩
  | dataLine p =>
    cases p with
    | done =>
      by_cases he : s.emitted <;>
        by_cases ht : (Chunk.trimChars s.fullText).isEmpty <;>
        simp_all [processLine, EmInv]
    | delta d => exact ⟨h1, h2⟩
    | usageEvt c pc lm tm => exact ⟨h1, h2⟩
    | otherJson => exact ⟨h1, h2⟩
    | invalid => exact ⟨h1, h2⟩

theorem processAll_emInv (ls : List Line) : ∀ s : TState, EmInv s →
    EmInv (processAll s ls) := by
  induction ls with
  | nil => intro s h; exact h
  | cons l rest ih =>
    intro s h
    by_cases hd : s.doneReading
    · simpa [processAll, hd] using h
    · simpa [processAll, hd] using ih (processLine s l) (processLine_emInv s l h)

theorem processStream_emInv (cs : List (List Line)) : ∀ s : TState, EmInv s →
    EmInv (processStream s cs) := by
  induction cs with
  | nil => intro s h; exact h
  | cons c rest ih =>
    intro s h
    by_cases hd : s.doneReading
    · simpa [processStream, hd] using h
    · simpa [processStream, hd] using ih (processAll s c) (processAll_emInv c s h)

/-- **C5 (amended).** Transcription emission: decompose the lines of a
transcription stream (in delivery order, chunk boundaries being
invisible) as a `[DONE]`-free prefix `pre`, the first `data: [DONE]`
line, and an arbitrary tail.  The incremental `transcript.text.delta`
payloads of `pre` are concatenated in arrival order, and the `[DONE]`
sentinel triggers exactly one `onNewTranscription(fullText, usage)`
call with that accumulated transcript (and the last usage event seen,
if any) — **provided the accumulated transcript is non-empty after
trimming**; when the transcript is empty or whitespace-only the
callback is not invoked at all (the code guards the emission with
`fullText.trim()`).  Moreover, for every stream whatsoever the callback
fires at most once per upload, even if `[DONE]`-style lines repeat. -/
theorem transcription_emission (chunks : List (List Line)) (pre post : List Line)
    (hsplit : chunks.flatten = pre ++ Line.dataLine Payload.done :: post)
    (hpre : ∀ l ∈ pre, hasDone l = false) :
    (processStream initT chunks).emissions =
      (if (Chunk.trimChars (concatDeltas pre)).isEmpty then []
        else [(concatDeltas pre, lastUsage pre)]) ∧
    ∀ chunks' : List (List Line),
      (processStream initT chunks').emissions.length ≤ 1 := by
  constructor
  · rw [processStream_eq_processAll, hsplit, processAll_append]
    obtain ⟨g1, g2, g3, g4, g5⟩ := processAll_noDone pre initT rfl hpre
    have hu : (processAll initT pre).usage = lastUsage pre := by
      rw [g2]
      show (match lastUsage pre with
        | some u => some u
        | none => (none : Option TUsage)) = lastUsage pre
      cases lastUsage pre <;> rfl
    have hft : (processAll initT pre).fullText = concatDeltas pre := by
      simpa [initT] using g1
    have hstep : processAll (processAll initT pre) (Line.dataLine Payload.done :: post) =
        processAll (processLine (processAll initT pre) (Line.dataLine Payload.done)) post := by
      simp [processAll, g4]
    rw [hstep]
    by_cases ht : (Chunk.trimChars (concatDeltas pre)).isEmpty
    · have hdone : processLine (processAll initT pre) (Line.dataLine Payload.done) =
          { processAll initT pre with doneReading := true } := by
        simp [processLine, g3, hft, ht]
      rw [hdone, processAll_of_done _ _ rfl, if_pos ht]
      simpa [initT] using g5
    · have hem : (processAll initT pre).emitted = false := g3
      have hfe : (Chunk.trimChars (processAll initT pre).fullText).isEmpty = false := by
        rw [hft]
        cases h : (Chunk.trimChars (concatDeltas pre)).isEmpty
        · rfl
        · exact absurd h ht
      have hdone : processLine (processAll initT pre) (Line.dataLine Payload.done) =
          { processAll initT pre with
            emitted := true
            doneReading := true
            emissions := (processAll initT pre).emissions ++
              [((processAll initT pre).fullText, (processAll initT pre).usage)] } := by
        simp [processLine, hem, hfe]
      rw [hdone, processAll_of_done _ _ rfl, if_neg ht]
      simp only []
      rw [hft, hu, g5]
      simp [initT]
  · intro chunks'
    have h := processStream_emInv chunks' initT ⟨rfl, by simp [initT]⟩
    rw [h.1]
    by_cases he : (processStream initT chunks').emitted <;> simp [he]

/-- **C5 (counterexample).** A stream consisting of the single line
`data: [DONE]` and no deltas: the terminal `[DONE]` does *not* trigger
an invocation of `onNewTranscription` — the accumulated transcript is
empty, so the `fullText.trim()` guard suppresses the emission and the
callback fires zero times, not exactly once. -/
theorem transcription_emission_counterexample :
    (processStream initT [[Line.dataLine Payload.done]]).emissions = [] ∧
    (processStream initT [[Line.dataLine Payload.done]]).emissions.length ≠ 1 := by
  refine ⟨by decide, by decide⟩

theorem transcription_emission_witness :
    (processStream initT
        [[Line.dataLine (Payload.delta (some ("Hel").data)),
          Line.dataLine (Payload.delta (some ("lo").data))],
          [Line.dataLine (Payload.usageEvt (some 1) (some 5) (some 40) none),
            Line.dataLine Payload.done,
            Line.dataLine (Payload.delta (some ("junk").data))]]).emissions =
      [(("Hello").data, some ⟨1, 5, 40, 0⟩)] := by
  have h := (transcription_emission
    [[Line.dataLine (Payload.delta (some ("Hel").data)),
      Line.dataLine (Payload.delta (some ("lo").data))],
      [Line.dataLine (Payload.usageEvt (some 1) (some 5) (some 40) none),
        Line.dataLine Payload.done,
        Line.dataLine (Payload.delta (some ("junk").data))]]
    [Line.dataLine (Payload.delta (some ("Hel").data)),
      Line.dataLine (Payload.delta (some ("lo").data)),
      Line.dataLine (Payload.usageEvt (some 1) (some 5) (some 40) none)]
    [Line.dataLine (Payload.delta (some ("junk").data))]
    (by decide) (by decide)).1
  rw [h]
  decide

/-- The fixed failure text delivered through the normal success path. -/
def errorText : List Char := ("Failed to process audio").data

/-- The outcome of the upload/stream as seen by `sendAudioToAPI`:
either the fetch itself fails (rejected promise, non-OK status, or
missing body — all reach the `catch`), or the body delivers some chunks
and then either ends normally or a read throws mid-stream. -/
inductive FetchOutcome
  | fetchFail
  | stream (chunks : List (List Line)) (readErr : Bool)

/-- `sendAudioToAPI` as a function from the fetch outcome to the list
of `onNewTranscription` calls it makes.  A mid-stream read error after
`[DONE]` was processed is unreachable (the loop has already broken), so
the `catch` emission happens only when `doneReading` is still false.
The function is total: no exception escapes to the caller. -/
def sendAudioToAPI : FetchOutcome → List (List Char × Option TUsage)
  | .fetchFail => [(errorText, none)]
  | .stream chunks readErr =>
    let s := processStream initT chunks
    if readErr && !s.doneReading then s.emissions ++ [(errorText, none)]
    else s.emissions

theorem emissions_empty_of_not_done (cs : List (List Line))
    (h : (processStream initT cs).doneReading = false) :
    (processStream initT cs).emissions = [] := by
  obtain ⟨h1, h2⟩ := processStream_emInv cs initT ⟨rfl, by simp [initT]⟩
  have he : (processStream initT cs).emitted = false := by
    cases hem : (processStream initT cs).emitted
    · rfl
    · rw [h2 hem] at h; cases h
  rw [he] at h1
  simpa using List.length_eq_zero.mp (by simpa using h1)

/-- **C9.** Failure propagation policy: every transcription
upload/stream failure inside `sendAudioToAPI` — a rejected or non-OK
fetch, a missing body, or a read error before `[DONE]` — is caught
locally and resolved by invoking `onNewTranscription` with exactly the
fixed string `"Failed to process audio"` (and no usage) through the
normal success path; the emission list is exactly that single call, and
the model is a total function — no exception escapes the orchestrator
to its caller. -/
theorem transcription_failure_resolved (cs : List (List Line))
    (hnd : (processStream initT cs).doneReading = false) :
    sendAudioToAPI FetchOutcome.fetchFail = [(errorText, none)] ∧
    sendAudioToAPI (FetchOutcome.stream cs true) = [(errorText, none)] := by
  refine ⟨rfl, ?_⟩
  show (if true && !(processStream initT cs).doneReading then
      (processStream initT cs).emissions ++ [(errorText, none)]
    else (processStream initT cs).emissions) = [(errorText, none)]
  rw [hnd, emissions_empty_of_not_done cs hnd]
  simp

theorem transcription_failure_resolved_witness :
    (processStream initT
        [[Line.dataLine (Payload.delta (some ("Hi ").data))]]).doneReading = false ∧
    sendAudioToAPI FetchOutcome.fetchFail = [(errorText, none)] ∧
    sendAudioToAPI
        (FetchOutcome.stream [[Line.dataLine (Payload.delta (some ("Hi ").data))]] true) =
      [(errorText, none)] :=
  ⟨by decide,
    transcription_failure_resolved
      [[Line.dataLine (Payload.delta (some ("Hi ").data))]] (by decide)⟩

end Transcribe

namespace Handsfree

/-!
## Handsfree orchestrator
(`src/components/bottomBar/hooks/useHandsfree.ts`)

State: the Boolean refs/state of the hook —
`isHandsfreeActive`/`isHandsfreeRef`, `suppressVADRef`,
`vadStopRef ≠ null` (the VAD loop exists: `vadLoop`), `vadArmedRef`,
`isRecording` (the MediaRecorder is in the `"recording"` state),
`isLoading`/`isLoadingRef`, and `isPlaying`/`isPlayingRef` of the TTS
player.  The mirrored refs are modelled as synchronized with the state
they mirror.  Events are the handlers of the handsfree loop:

* `enable`/`disable` — `setIsHandsfreeActiveWrapped` plus the
  `isHandsfreeActive` effect (on disable, `stopTTS()` clears `playing`,
  the VAD loop and `vadArmedRef` are released, gates cleared, and
  `stopRecordingAndSend` runs if a recorder is active — note it sets
  `suppressVADRef` back to `true` and `isLoading` to `true`);
* `vadOnStart`/`vadOnStop` — the VAD callbacks installed by
  `startVADInternal` (they can only fire while the loop exists);
  `vadOnStart` is guarded by
  `suppressVADRef || isPlayingRef || isLoadingRef || !isHandsfreeRef ||
  recorder already recording`, and on success creates a MediaRecorder
  and starts recording (microphone acquisition assumed to succeed);
* `transcribeDone` — the `finally` of `sendAudioToAPI` (clears the
  spinner only when not in handsfree mode);
* `playRequest` — the handsfree prologue of `handlePlayTTSWrapped`:
  suppresses VAD, stops the loop (leaving `vadArmedRef` untouched) and
  stops a still-active recorder;
* `playStarted` — the `wasIdle` transition of `maybeStartNext`
  (`isPlaying := true`) plus the `"tts-started-flag"` handler
  `handleTTSStart`, registered only while handsfree is active;
* `playEnded` — the queue draining (`isPlaying := false`);
* `ttsCompleteDebounced` — the 300 ms debounced body of
  `handleTTSComplete` (registered, and re-checked, only while handsfree
  is active).

The manual (push-to-talk) recording path is outside this event set; the
`blockPlaybackUntilRecordingRef` enable-time gate touches none of the
modelled invariants and is omitted.

Two deliberate abstractions of this model, adequate for the C4 guard
scenario below but **not** for recorder/playback exclusivity:
`recording` is the `isRecording` flag with the MediaRecorder's own
lifecycle identified with it — but `handleTTSStart` only calls
`setIsRecording(false)` and never stops the recorder
(useHandsfree.ts:563-574) — and `vadOnStart` is modelled atomically,
although the source has `await navigator.mediaDevices.getUserMedia(...)`
between the guard check and `mediaRecorder.start()` with no re-check
(useHandsfree.ts:480-519).  In the C4 scenario both abstractions are
exact: a speech-start occurring during playback is rejected at the
guard itself (before the await), and the playback there is entered
through the handsfree prologue, which does stop the recorder.  The
refined model in the `Fine` namespace below removes both abstractions
— separating the real recorder state from the `isRecording` flag and
splitting `vadOnStart` at its await — and settles the mutual-exclusion
claim C2 against it.
-/

structure HState where
  handsfree : Bool
  suppressVAD : Bool
  vadLoop : Bool
  vadArmed : Bool
  recording : Bool
  loading : Bool
  playing : Bool
deriving Repr, DecidableEq

inductive HEvent
  | enable
  | disable
  | vadOnStart
  | vadOnStop
  | transcribeDone
  | playRequest
  | playStarted
  | playEnded
  | ttsCompleteDebounced
deriving Repr, DecidableEq

def initH : HState := ⟨false, false, false, false, false, false, false⟩

/-- `startVADInternal`: arming is idempotent (`if (vadArmedRef.current)
return`), otherwise the VAD loop is created and armed. -/
def startVADInternal (s : HState) : HState :=
  if s.vadArmed then s
  else { s with vadArmed := true, vadLoop := true }

/-- `stopRecordingAndSend`: when a recorder is actively recording, stop
it, gate the VAD (`suppressVADRef := true`) and show the spinner.  (On
an inactive recorder the initial `MediaRecorder.stop()` throws before
any state change, so nothing changes.) -/
def stopRecordingAndSend (s : HState) : HState :=
  if s.recording then
    { s with recording := false, suppressVAD := true, loading := true }
  else s

def stepH (s : HState) : HEvent → HState
  | .enable =>
    startVADInternal { s with handsfree := true, suppressVAD := false }
  | .disable =>
    stopRecordingAndSend
      { s with
        handsfree := false
        suppressVAD := false
        vadLoop := false
        vadArmed := false
        playing := false }
  | .vadOnStart =>
    if !s.vadLoop then s
    else if s.suppressVAD || s.playing || s.loading || !s.handsfree || s.recording
      then s
    else { s with recording := true }
  | .vadOnStop =>
    if !s.vadLoop then s else stopRecordingAndSend s
  | .transcribeDone =>
    if !s.handsfree then { s with loading := false } else s
  | .playRequest =>
    { s with suppressVAD := true, vadLoop := false, recording := false }
  | .playStarted =>
    if s.playing then s
    else if s.handsfree then
      { s with
        playing := true
        loading := false
        recording := false
        suppressVAD := true
        vadLoop := false
        vadArmed := false }
    else { s with playing := true }
  | .playEnded => { s with playing := false }
  | .ttsCompleteDebounced =>
    if s.handsfree then
      startVADInternal
        { s with loading := false, recording := false, suppressVAD := false }
    else s

def runH (s : HState) : List HEvent → HState
  | [] => s
  | e :: es => runH (stepH s e) es

/-- The events that can occur between a `"tts-started-flag"` and the
debounced `"tts-oncomplete"` handler while handsfree stays active. -/
def midEvent : HEvent → Bool
  | .enable => false
  | .disable => false
  | .ttsCompleteDebounced => false
  | _ => true

theorem stepH_mid_persist (s : HState) (e : HEvent) (hm : midEvent e = true)
    (h1 : s.suppressVAD = true) (h2 : s.handsfree = true)
    (h3 : s.vadArmed = false) :
    (stepH s e).suppressVAD = true ∧ (stepH s e).handsfree = true ∧
      (stepH s e).vadArmed = false := by
  obtain ⟨a, b, c, d, e1, f, g⟩ := s
  revert hm h1 h2 h3
  cases e <;> (revert a b c d e1 f g; decide)

theorem vadOnStart_noop_of_suppressed (s : HState) (h : s.suppressVAD = true) :
    stepH s HEvent.vadOnStart = s := by
  obtain ⟨a, b, c, d, e1, f, g⟩ := s
  revert h
  revert a b c d e1 f g
  decide

theorem playStarted_guards (s : HState) (h1 : s.handsfree = true)
    (h2 : s.playing = false) :
    (stepH s HEvent.playStarted).suppressVAD = true ∧
    (stepH s HEvent.playStarted).handsfree = true ∧
    (stepH s HEvent.playStarted).vadArmed = false := by
  obtain ⟨a, b, c, d, e1, f, g⟩ := s
  revert h1 h2
  revert a b c d e1 f g
  decide

theorem ttsComplete_rearm (s : HState) (h1 : s.handsfree = true)
    (h2 : s.vadArmed = false) :
    (stepH s HEvent.ttsCompleteDebounced).suppressVAD = false ∧
    (stepH s HEvent.ttsCompleteDebounced).vadLoop = true ∧
    (stepH s HEvent.ttsCompleteDebounced).loading = false ∧
    (stepH s HEvent.ttsCompleteDebounced).recording = false ∧
    (stepH s HEvent.ttsCompleteDebounced).handsfree = true ∧
    (stepH s HEvent.ttsCompleteDebounced).playing = s.playing := by
  obtain ⟨a, b, c, d, e1, f, g⟩ := s
  revert h1 h2
  revert a b c d e1 f g
  decide

theorem vadOnStart_records (s : HState) (h1 : s.vadLoop = true)
    (h2 : s.suppressVAD = false) (h3 : s.playing = false) (h4 : s.loading = false)
    (h5 : s.handsfree = true) (h6 : s.recording = false) :
    (stepH s HEvent.vadOnStart).recording = true := by
  obtain ⟨a, b, c, d, e1, f, g⟩ := s
  revert h1 h2 h3 h4 h5 h6
  revert a b c d e1 f g
  decide

theorem runH_mid_persist (mid : List HEvent) : ∀ s : HState,
    (∀ e ∈ mid, midEvent e = true) →
    s.suppressVAD = true → s.handsfree = true → s.vadArmed = false →
    (runH s mid).suppressVAD = true ∧ (runH s mid).handsfree = true ∧
      (runH s mid).vadArmed = false := by
  induction mid with
  | nil => intro s _ h1 h2 h3; exact ⟨h1, h2, h3⟩
  | cons e es ih =>
    intro s hall h1 h2 h3
    have he := stepH_mid_persist s e (hall e (List.mem_cons_self e es)) h1 h2 h3
    exact ih (stepH s e) (fun e' h' => hall e' (List.mem_cons_of_mem e h'))
      he.1 he.2.1 he.2.2

/-- **C4.** Mid-playback recording guard: start from any orchestrator
state with handsfree active and the TTS player idle, and let a TTS turn
begin playing (`playStarted`).  Then (1) the suppression flag is set,
(2) at *every* point of any following event sequence that keeps
handsfree on and precedes the debounced playback-complete handler, a
VAD speech-start event is a complete no-op — it neither creates a
MediaRecorder nor transitions to Recording (nor changes anything else);
and (3) once `ttsCompleteDebounced` has cleared the suppression flag
and re-armed the VAD loop, a subsequent speech-start does transition
the orchestrator to Recording (provided playback has by then ended). -/
theorem handsfree_midplayback_guard (s0 : HState) (mid : List HEvent)
    (hhf : s0.handsfree = true) (hpl : s0.playing = false)
    (hmid : ∀ e ∈ mid, midEvent e = true)
    (hpl2 : (runH (stepH s0 HEvent.playStarted) mid).playing = false) :
    (stepH s0 HEvent.playStarted).suppressVAD = true ∧
    (∀ i : ℕ,
      stepH (runH (stepH s0 HEvent.playStarted) (mid.take i)) HEvent.vadOnStart =
        runH (stepH s0 HEvent.playStarted) (mid.take i)) ∧
    (stepH (stepH (runH (stepH s0 HEvent.playStarted) mid) HEvent.ttsCompleteDebounced)
        HEvent.vadOnStart).recording = true := by
  obtain ⟨hs1, hh1, ha1⟩ := playStarted_guards s0 hhf hpl
  refine ⟨hs1, ?_, ?_⟩
  · intro i
    have hmidt : ∀ e ∈ mid.take i, midEvent e = true :=
      fun e he => hmid e (List.take_subset i mid he)
    have hp := runH_mid_persist (mid.take i) (stepH s0 HEvent.playStarted)
      hmidt hs1 hh1 ha1
    exact vadOnStart_noop_of_suppressed _ hp.1
  · have hp := runH_mid_persist mid (stepH s0 HEvent.playStarted) hmid hs1 hh1 ha1
    obtain ⟨hr1, hr2, hr3, hr4, hr5, hr6⟩ :=
      ttsComplete_rearm (runH (stepH s0 HEvent.playStarted) mid) hp.2.1 hp.2.2
    exact vadOnStart_records _ hr2 hr1 (by rw [hr6]; exact hpl2) hr3 hr5 hr4

theorem handsfree_midplayback_guard_witness :
    (runH initH [HEvent.enable, HEvent.playRequest]).handsfree = true ∧
    (runH initH [HEvent.enable, HEvent.playRequest]).playing = false ∧
    (∀ e ∈ [HEvent.playEnded], midEvent e = true) ∧
    (runH (stepH (runH initH [HEvent.enable, HEvent.playRequest]) HEvent.playStarted)
        [HEvent.playEnded]).playing = false ∧
    ((stepH (runH initH [HEvent.enable, HEvent.playRequest])
        HEvent.playStarted).suppressVAD = true ∧
      (∀ i : ℕ,
        stepH (runH (stepH (runH initH [HEvent.enable, HEvent.playRequest])
            HEvent.playStarted) ([HEvent.playEnded].take i)) HEvent.vadOnStart =
          runH (stepH (runH initH [HEvent.enable, HEvent.playRequest])
            HEvent.playStarted) ([HEvent.playEnded].take i)) ∧
      (stepH (stepH (runH (stepH (runH initH [HEvent.enable, HEvent.playRequest])
            HEvent.playStarted) [HEvent.playEnded]) HEvent.ttsCompleteDebounced)
          HEvent.vadOnStart).recording = true) :=
  ⟨by decide, by decide, by decide, by decide,
    handsfree_midplayback_guard (runH initH [HEvent.enable, HEvent.playRequest])
      [HEvent.playEnded] (by decide) (by decide) (by decide) (by decide)⟩

namespace Fine

/-!
### Refined orchestrator model: the real recorder and the mic-acquisition await

This model removes the two abstractions of `stepH`:

* `recorderOn` is the actual `MediaRecorder` being in the `"recording"`
  state (the thing the guards test via
  `mediaRecorderRef.current?.state === "recording"`), while
  `uiRecording` is the `isRecording` React flag.  `handleTTSStart` and
  `handleTTSComplete` clear only the flag; the recorder itself is
  stopped only by `stopRecordingAndSend`, the handsfree prologue of
  `handlePlayTTSWrapped`, manual stop, disable and unmount.
* `vadOnStart` is split at its suspension point: `vadStartCheck` is the
  synchronous guard
  (`suppressVADRef || isPlayingRef || isLoadingRef || !isHandsfreeRef ||
  recorder already recording`), after which the handler suspends at
  `await navigator.mediaDevices.getUserMedia(...)` (`micPending` counts
  such suspended acquisitions); `micAcquired` is its continuation,
  which creates the recorder, starts it and sets `isRecording` — with
  no re-check of any guard (useHandsfree.ts:480-519).

`playStarted` is a first chunk starting for *any* `playTTS` call.  A
call without the handsfree flag — e.g. the message speaker button,
which invokes `handlePlayTTS(message.id, message.text)` with the flag
defaulting to `false` and no guard against handsfree mode — skips the
prologue entirely, so `playStarted` can occur with the recorder still
capturing.
-/

structure RState where
  handsfree : Bool
  suppressVAD : Bool
  vadLoop : Bool
  vadArmed : Bool
  recorderOn : Bool
  uiRecording : Bool
  micPending : ℕ
  loading : Bool
  playing : Bool
deriving Repr, DecidableEq

def initR : RState := ⟨false, false, false, false, false, false, 0, false, false⟩

def startVADInternalR (s : RState) : RState :=
  if s.vadArmed then s
  else { s with vadArmed := true, vadLoop := true }

/-- `stopRecordingAndSend` on the real recorder: stops it, clears the
flag, gates the VAD and shows the spinner; on an inactive recorder the
initial `MediaRecorder.stop()` throws before any state change. -/
def stopRecordingAndSendR (s : RState) : RState :=
  if s.recorderOn then
    { s with
      recorderOn := false
      uiRecording := false
      suppressVAD := true
      loading := true }
  else s

inductive REvent
  | enable
  | disable
  | vadStartCheck
  | micAcquired
  | vadOnStop
  | transcribeDone
  | playRequest
  | playStarted
  | playEnded
  | ttsCompleteDebounced
deriving Repr, DecidableEq

def stepR (s : RState) : REvent → RState
  | .enable => startVADInternalR { s with handsfree := true, suppressVAD := false }
  | .disable =>
    stopRecordingAndSendR
      { s with
        handsfree := false
        suppressVAD := false
        vadLoop := false
        vadArmed := false
        playing := false }
  | .vadStartCheck =>
    if !s.vadLoop then s
    else if s.suppressVAD || s.playing || s.loading || !s.handsfree || s.recorderOn
      then s
    else { s with micPending := s.micPending + 1 }
  | .micAcquired =>
    match s.micPending with
    | 0 => s
    | p + 1 => { s with micPending := p, recorderOn := true, uiRecording := true }
  | .vadOnStop =>
    if !s.vadLoop then s else stopRecordingAndSendR s
  | .transcribeDone =>
    if !s.handsfree then { s with loading := false } else s
  | .playRequest =>
    if s.recorderOn then
      { s with
        suppressVAD := true
        vadLoop := false
        recorderOn := false
        uiRecording := false }
    else { s with suppressVAD := true, vadLoop := false }
  | .playStarted =>
    if s.playing then s
    else if s.handsfree then
      { s with
        playing := true
        loading := false
        uiRecording := false
        suppressVAD := true
        vadLoop := false
        vadArmed := false }
    else { s with playing := true }
  | .playEnded => { s with playing := false }
  | .ttsCompleteDebounced =>
    if s.handsfree then
      startVADInternalR
        { s with loading := false, uiRecording := false, suppressVAD := false }
    else s

def runR (s : RState) : List REvent → RState
  | [] => s
  | e :: es => runR (stepR s e) es

/-- **C2 (counterexample).** On the refined model, from a fresh
orchestrator: (a) `[enable, vadStartCheck, micAcquired]` reaches a
state where handsfree is active and both the VAD (armed, loop running)
and the recorder (capturing) are live — refuting the claimed three-way
mutual exclusion; (b) one further `playStarted` — a `playTTS` without
the handsfree flag, as the message speaker button issues with no guard
against handsfree mode — leaves the recorder capturing **while TTS is
playing**: `handleTTSStart` clears only the `isRecording` flag (which
now diverges from the recorder) and never stops the recorder; (c) a
microphone acquisition left pending when playback starts
(`[enable, vadStartCheck, playRequest, playStarted, micAcquired]`)
starts the recorder mid-playback, since the `onStart` continuation
re-checks nothing after its await.  So recording is exclusive neither
with VAD-armed nor with playing, as stated. -/
theorem handsfree_exclusion_counterexample :
    ((runR initR [REvent.enable, REvent.vadStartCheck, REvent.micAcquired]).handsfree
        = true ∧
      (runR initR [REvent.enable, REvent.vadStartCheck, REvent.micAcquired]).vadArmed
        = true ∧
      (runR initR [REvent.enable, REvent.vadStartCheck, REvent.micAcquired]).vadLoop
        = true ∧
      (runR initR [REvent.enable, REvent.vadStartCheck, REvent.micAcquired]).recorderOn
        = true) ∧
    ((runR initR [REvent.enable, REvent.vadStartCheck, REvent.micAcquired,
        REvent.playStarted]).recorderOn = true ∧
      (runR initR [REvent.enable, REvent.vadStartCheck, REvent.micAcquired,
        REvent.playStarted]).playing = true ∧
      (runR initR [REvent.enable, REvent.vadStartCheck, REvent.micAcquired,
        REvent.playStarted]).uiRecording = false) ∧
    ((runR initR [REvent.enable, REvent.vadStartCheck, REvent.playRequest,
        REvent.playStarted, REvent.micAcquired]).recorderOn = true ∧
      (runR initR [REvent.enable, REvent.vadStartCheck, REvent.playRequest,
        REvent.playStarted, REvent.micAcquired]).playing = true) := by
  refine ⟨by decide, by decide, by decide⟩

/-- The serialized-handsfree-loop side condition: every `playStarted`
occurs in a state with no active recorder and no pending microphone
acquisition.  The handsfree prologue (`playRequest`) establishes the
first conjunct by stopping the recorder; the second holds when no
speech-start acquisition is still awaited when playback starts. -/
def playStartsClear (s : RState) : List REvent → Bool
  | [] => true
  | e :: rest =>
    (if e = REvent.playStarted then !s.recorderOn && s.micPending == 0 else true) &&
      playStartsClear (stepR s e) rest

/-- The exclusivity that survives on the refined model: while TTS is
playing, the recorder is off and no acquisition is pending. -/
def InvR (s : RState) : Prop :=
  s.playing = true → s.recorderOn = false ∧ s.micPending = 0

theorem stepR_invR (s : RState) (e : REvent) (hne : e ≠ REvent.playStarted)
    (h : InvR s) : InvR (stepR s e) := by
  unfold InvR at h ⊢
  cases e with
  | enable =>
    intro hp
    by_cases ha : s.vadArmed <;> simp [stepR, startVADInternalR, ha] at hp ⊢ <;>
      exact h hp
  | disable =>
    intro hp
    by_cases hr : s.recorderOn <;> simp [stepR, stopRecordingAndSendR, hr] at hp
  | vadStartCheck =>
    by_cases h1 : s.vadLoop
    · by_cases h2 : (s.suppressVAD || s.playing || s.loading || !s.handsfree ||
        s.recorderOn)
      · simpa [stepR, h1, h2] using h
      · intro hp
        simp [stepR, h1, h2] at hp
        simp [hp] at h2
    · simpa [stepR, h1] using h
  | micAcquired =>
    cases hm : s.micPending with
    | zero => simpa [stepR, hm] using h
    | succ p =>
      intro hp
      simp [stepR, hm] at hp
      have h2 := h hp
      rw [hm] at h2
      exact absurd h2.2 (Nat.succ_ne_zero p)
  | vadOnStop =>
    by_cases h1 : s.vadLoop
    · by_cases hr : s.recorderOn
      · intro hp
        simp [stepR, stopRecordingAndSendR, h1, hr] at hp ⊢
        exact (h hp).2
      · simpa [stepR, stopRecordingAndSendR, h1, hr] using h
    · simpa [stepR, h1] using h
  | transcribeDone =>
    by_cases h1 : s.handsfree
    · simpa [stepR, h1] using h
    · intro hp
      simp [stepR, h1] at hp ⊢
      exact h hp
  | playRequest =>
    by_cases hr : s.recorderOn
    · intro hp
      simp [stepR, hr] at hp ⊢
      exact (h hp).2
    · intro hp
      simp [stepR, hr] at hp ⊢
      exact (h hp).2
  | playStarted => exact absurd rfl hne
  | playEnded =>
    intro hp
    simp [stepR] at hp
  | ttsCompleteDebounced =>
    by_cases h1 : s.handsfree
    · intro hp
      by_cases ha : s.vadArmed <;>
        simp [stepR, startVADInternalR, h1, ha] at hp ⊢ <;> exact h hp
    · simpa [stepR, h1] using h

theorem runR_invR (evs : List REvent) : ∀ s : RState, InvR s →
    playStartsClear s evs = true → InvR (runR s evs) := by
  induction evs with
  | nil => intro s h _; exact h
  | cons e rest ih =>
    intro s h hc
    rw [playStartsClear, Bool.and_eq_true] at hc
    obtain ⟨hc1, hc2⟩ := hc
    apply ih (stepR s e) ?_ hc2
    by_cases he : e = REvent.playStarted
    · subst he
      rw [if_pos rfl, Bool.and_eq_true] at hc1
      have hrec : s.recorderOn = false := by simpa using hc1.1
      have hmic : s.micPending = 0 := by simpa using hc1.2
      intro _
      by_cases hpl : s.playing
      · simpa [stepR, hpl] using ⟨hrec, hmic⟩
      · by_cases hhf : s.handsfree <;>
          simp [stepR, hpl, hhf] <;> exact ⟨hrec, hmic⟩
    · exact stepR_invR s e he h

/-- **C2 (amended).** Handsfree mutual exclusion, as it actually holds
on the refined model: the three-way exclusion of
{VAD armed, recording, TTS playing} is false (the VAD loop stays armed
through every recording, a speaker-button `playTTS` without the
handsfree flag leaves the recorder capturing during playback, and a
pending `getUserMedia` can start the recorder mid-playback — see the
counterexample).  What holds is the exclusivity of the handsfree loop
proper: for every event sequence in which each playback start occurs
with no active recorder and no pending microphone acquisition (the
side condition `playStartsClear`, which the handsfree prologue
establishes for the recorder), every reachable state satisfies: while
TTS is playing the recorder is off and no acquisition is pending — in
particular recording and playback are then mutually exclusive. -/
theorem handsfree_recorder_playing_exclusive (evs : List REvent)
    (hclear : playStartsClear initR evs = true) :
    ((runR initR evs).playing = true →
      (runR initR evs).recorderOn = false ∧ (runR initR evs).micPending = 0) ∧
    ¬((runR initR evs).recorderOn = true ∧ (runR initR evs).playing = true) := by
  have h := runR_invR evs initR (by intro hp; simp [initR] at hp) hclear
  refine ⟨h, ?_⟩
  rintro ⟨hr, hp⟩
  rw [(h hp).1] at hr
  cases hr

/-- A full handsfree cycle satisfying the serialized side condition:
arm, speak, record, silence, upload, handsfree playback, completion,
re-arm. -/
def c2evs : List REvent :=
  [REvent.enable, REvent.vadStartCheck, REvent.micAcquired, REvent.vadOnStop,
    REvent.playRequest, REvent.playStarted, REvent.playEnded,
    REvent.ttsCompleteDebounced]

theorem handsfree_recorder_playing_exclusive_witness :
    playStartsClear initR c2evs = true ∧
    (((runR initR c2evs).playing = true →
      (runR initR c2evs).recorderOn = false ∧ (runR initR c2evs).micPending = 0) ∧
    ¬((runR initR c2evs).recorderOn = true ∧ (runR initR c2evs).playing = true)) :=
  ⟨by decide, handsfree_recorder_playing_exclusive c2evs (by decide)⟩

end Fine

end Handsfree

end VoiceLibre
